import Mathlib

/-!
Verification of the policy-detail cache of `aws_pc` (`src/aws_pc/policy.py`).

The Python module is shallowly embedded: the process-wide mutable state
(the global `POLICY_DETAILS_CACHE`, the local cache file and the remote
S3 object) becomes an explicit `World` record threaded through the
functions, remote collaborators (the IAM client) become function-valued
records, side effects are recorded in an explicit event trace, and
exceptions become `Except`.  The `dill` binary serialization is modelled
as a faithful store of the mapping value (its byte-level encoding is a
library concern, outside this repository).
-/

/-- The record built by `PolicyDetails.__init__` (all fields default to
the empty string) and filled in by `get_policy_details`. -/
structure PolicyDetails where
  name : String
  text : String
  version : String
  description : String
deriving Repr, DecidableEq

/-- `PolicyDetails()`: every field starts as the empty string. -/
def PolicyDetails.empty : PolicyDetails :=
  { name := "", text := "", version := "", description := "" }

/-- The module-level constant `ATTACHMENT_TYPES`. -/
def ATTACHMENT_TYPES : List String := ["Group", "User", "Inline", "Role"]

/-- The fixed string tested by `self.arn.startswith("arn:aws:iam::aws:policy")`. -/
def AWS_MANAGED_ARN_START : String := "arn:aws:iam::aws:policy"

/-- Embedding of `re.sub("[:/]", "", arn)`: scan the characters left to
right, dropping every `:` and `/`. -/
def reSubColonSlash : List Char → List Char
  | [] => []
  | c :: cs => if c = ':' ∨ c = '/' then reSubColonSlash cs else c :: reSubColonSlash cs

/-- `arn` with the characters `:` and `/` removed, as computed in
`PolicySummary.__init__`. -/
def sanitizeArn (arn : String) : String :=
  String.mk (reSubColonSlash arn.data)

/-- Embedding of Python `str.startswith`: a plain list-prefix test. -/
def charsStartWith : List Char → List Char → Bool
  | _, [] => true
  | [], _ :: _ => false
  | c :: cs, d :: ds => (c = d) && charsStartWith cs ds

/-- `s.startswith(p)` on the embedded strings. -/
def strStartsWith (s p : String) : Bool :=
  charsStartWith s.data p.data

/-- Errors raised by the module: `SyntaxError` from the `PolicySummary`
constructor, and the re-raised `botocore.exceptions.ClientError` from
`load_policy_cache` (the spec's `CacheLoadError`).  A `keyError`
constructor models Python's `KeyError` from dictionary indexing. -/
inductive PolicyError where
  | invalidAttachmentType (t : String)
  | cacheLoadError
  | keyError
deriving Repr, DecidableEq

/-- The fields computed by `PolicySummary.__init__`. -/
structure PolicySummary where
  arn : String
  sanitized_arn : String
  attachment_type : String
  aws_managed : Bool
deriving Repr, DecidableEq

/-- Embedding of `PolicySummary.__init__(arn, attachment_type)`:
validate the attachment type against `ATTACHMENT_TYPES` before any other
work, then compute the sanitized ARN and the AWS-managed flag. -/
def PolicySummary.init (arn : String) (attachment_type : String) :
    Except PolicyError PolicySummary :=
  if attachment_type ∈ ATTACHMENT_TYPES then
    Except.ok
      { arn := arn
        sanitized_arn := sanitizeArn arn
        attachment_type := attachment_type
        aws_managed := if strStartsWith arn AWS_MANAGED_ARN_START then true else false }
  else
    Except.error (PolicyError.invalidAttachmentType attachment_type)

/-! ### The policy document and `json.dumps(document, indent=2)` -/

/-- A structured access-policy document, as returned by the IAM
`get_policy_version` collaborator (a nested key/value tree). -/
inductive Json where
  | null
  | jbool (b : Bool)
  | num (n : Int)
  | str (s : String)
  | arr (xs : List Json)
  | obj (kvs : List (String × Json))
deriving Repr

/-- Lowercase hexadecimal digit, as used by Python's `\uXXXX` escapes. -/
def hexDigitChar (n : Nat) : Char :=
  if n < 10 then Char.ofNat (48 + n) else Char.ofNat (87 + n)

/-- Four lowercase hex digits of a code unit. -/
def hex4 (n : Nat) : String :=
  String.mk [hexDigitChar (n / 4096 % 16), hexDigitChar (n / 256 % 16),
             hexDigitChar (n / 16 % 16), hexDigitChar (n % 16)]

/-- One character of a JSON string literal as Python `json.dumps` emits
it (default `ensure_ascii=True`): printable ASCII other than `"` and
`\` is kept, the short escapes are used where they exist, everything
else becomes `\uXXXX` (surrogate pairs beyond the BMP). -/
def jsonEscapeChar (c : Char) : List Char :=
  if c = '"' then ['\\', '"']
  else if c = '\\' then ['\\', '\\']
  else if c = '\n' then ['\\', 'n']
  else if c = '\t' then ['\\', 't']
  else if c = '\r' then ['\\', 'r']
  else if c.toNat = 8 then ['\\', 'b']
  else if c.toNat = 12 then ['\\', 'f']
  else if c.toNat < 32 ∨ c.toNat > 126 then
    if c.toNat ≤ 65535 then '\\' :: 'u' :: (hex4 c.toNat).toList
    else
      let v := c.toNat - 65536
      ('\\' :: 'u' :: (hex4 (55296 + v / 1024)).toList) ++
        ('\\' :: 'u' :: (hex4 (56320 + v % 1024)).toList)
  else [c]

/-- A JSON string literal: the escaped characters between double quotes. -/
def jsonQuote (s : String) : String :=
  String.mk ('"' :: (s.data.map jsonEscapeChar).flatten ++ ['"'])

/-- `indent=2` indentation at nesting level `lvl`. -/
def indentOf (lvl : Nat) : String :=
  String.mk (List.replicate (2 * lvl) ' ')

mutual

/-- `json.dumps(value, indent=2)` at nesting level `lvl`: item separator
`","` + newline, key separator `": "`, empty containers printed flat. -/
def dumpsVal : Json → Nat → String
  | Json.null, _ => "null"
  | Json.jbool true, _ => "true"
  | Json.jbool false, _ => "false"
  | Json.num n, _ => toString n
  | Json.str s, _ => jsonQuote s
  | Json.arr [], _ => "[]"
  | Json.arr (x :: xs), lvl =>
      String.append (String.append "[\n" (dumpsItems (x :: xs) (lvl + 1)))
        (String.append "\n" (String.append (indentOf lvl) "]"))
  | Json.obj [], _ => "\x7b\x7d"
  | Json.obj (kv :: kvs), lvl =>
      String.append (String.append "\x7b\n" (dumpsFields (kv :: kvs) (lvl + 1)))
        (String.append "\n" (String.append (indentOf lvl) "\x7d"))

/-- The lines of a non-empty JSON array body. -/
def dumpsItems : List Json → Nat → String
  | [], _ => ""
  | [x], lvl => String.append (indentOf lvl) (dumpsVal x lvl)
  | x :: y :: xs, lvl =>
      String.append (String.append (indentOf lvl) (dumpsVal x lvl))
        (String.append ",\n" (dumpsItems (y :: xs) lvl))

/-- The lines of a non-empty JSON object body. -/
def dumpsFields : List (String × Json) → Nat → String
  | [], _ => ""
  | [(k, v)], lvl =>
      String.append (indentOf lvl)
        (String.append (jsonQuote k) (String.append ": " (dumpsVal v lvl)))
  | (k, v) :: kv :: kvs, lvl =>
      String.append (indentOf lvl)
        (String.append (jsonQuote k)
          (String.append ": "
            (String.append (dumpsVal v lvl) (String.append ",\n" (dumpsFields (kv :: kvs) lvl)))))

end

/-- `json.dumps(document, indent=2)`. -/
def json_dumps_indent2 (j : Json) : String := dumpsVal j 0

/-- Embedding of `.replace("\n", "<br>")` on the character list: every
line-break character becomes the four-character marker `<br>`. -/
def replaceNewlineChars : List Char → List Char
  | [] => []
  | c :: cs =>
      if c = '\n' then '<' :: 'b' :: 'r' :: '>' :: replaceNewlineChars cs
      else c :: replaceNewlineChars cs

/-- `s.replace("\n", "<br>")`. -/
def flattenNewlines (s : String) : String :=
  String.mk (replaceNewlineChars s.data)

/-! ### The cache, the world state and the event trace -/

/-- The in-memory mapping `POLICY_DETAILS_CACHE`, modelled as a Python
dict: an association list with unique keys, assignment updating in
place or appending. -/
abbrev Cache := List (String × PolicyDetails)

/-- Dictionary membership / read: `arn in cache`, `cache[arn]`. -/
def lookupCache : Cache → String → Option PolicyDetails
  | [], _ => none
  | (k, v) :: rest, arn => if k = arn then some v else lookupCache rest arn

/-- Dictionary assignment `cache[arn] = details`: overwrite the existing
binding in place, or append a new one. -/
def insertCache : Cache → String → PolicyDetails → Cache
  | [], arn, details => [(arn, details)]
  | (k, v) :: rest, arn, details =>
      if k = arn then (arn, details) :: rest
      else (k, v) :: insertCache rest arn details

/-- The mutable state the module touches: the process-wide global
`POLICY_DETAILS_CACHE`, the content of the local file
`./policy_cache.bin` and the content of the remote object
`policy_cache.bin` (`none` = absent; `dill` serialization is modelled
as a faithful store of the mapping). -/
structure World where
  cache : Cache
  localFile : Option Cache
  remoteObject : Option Cache
deriving Repr, DecidableEq

/-- The observable side effects, in order of occurrence. -/
inductive Event where
  | s3GetObject
  | fileRead
  | iamGetPolicy (arn : String)
  | iamGetPolicyVersion (arn : String) (versionId : String)
  | fileWrite
  | ensureBucket
  | s3Upload
deriving Repr, DecidableEq

/-- Embedding of `load_policy_cache(s3_client, remote_bucket_name)`.
The s3 client's behaviour is split into the remote object content
(`w.remoteObject`) and a fault flag `remoteReadFault` meaning the
`get_object` call raises a `ClientError` whose code is not
`"NoSuchKey"`.  Returns the mapping the Python function returns (always
an alias of the global), the new world and the I/O events. -/
def load_policy_cache (remote_bucket_name : Option String) (remoteReadFault : Bool)
    (w : World) : Except PolicyError (Cache × World × List Event) :=
  if w.cache ≠ [] then
    Except.ok (w.cache, w, [])
  else
    match remote_bucket_name with
    | some _ =>
        if remoteReadFault then Except.error PolicyError.cacheLoadError
        else
          match w.remoteObject with
          | none => Except.ok (w.cache, w, [Event.s3GetObject])
          | some m => Except.ok (m, { w with cache := m }, [Event.s3GetObject])
    | none =>
        match w.localFile with
        | some m => Except.ok (m, { w with cache := m }, [Event.fileRead])
        | none => Except.ok (w.cache, w, [])

/-- Embedding of `save_policy_cache(s3_client, remote_bucket_name)`:
dump the global mapping to the local file unconditionally; when a
remote bucket is configured, ensure the bucket exists and upload the
just-written file under the fixed key. -/
def save_policy_cache (remote_bucket_name : Option String) (w : World) :
    World × List Event :=
  let w1 : World := { w with localFile := some w.cache }
  match remote_bucket_name with
  | some _ =>
      ({ w1 with remoteObject := some w1.cache },
       [Event.fileWrite, Event.ensureBucket, Event.s3Upload])
  | none => (w1, [Event.fileWrite])

/-- The descriptor returned by the IAM `get_policy` collaborator:
`{name, currentVersionId, description?}` (the `Description` key may be
absent). -/
structure IamPolicyRecord where
  policyName : String
  defaultVersionId : String
  description : Option String

/-- The remote IAM collaborator: `get_policy` and `get_policy_version`
(the latter returning the `Document` tree). -/
structure IamClient where
  getPolicy : String → IamPolicyRecord
  getPolicyVersion : String → String → Json

/-- Embedding of `PolicySummary.get_policy_details`: load the cache,
return the stored detail on a hit; on a miss fetch the descriptor and
the version document, compose the `PolicyDetails`, insert it, save the
cache and return it. -/
def PolicySummary.get_policy_details (self : PolicySummary) (iam_client : IamClient)
    (remote_bucket_name : Option String) (remoteReadFault : Bool) (w : World) :
    Except PolicyError (PolicyDetails × World × List Event) :=
  match load_policy_cache remote_bucket_name remoteReadFault w with
  | Except.error e => Except.error e
  | Except.ok (policy_details_cache, w1, loadEvents) =>
      match lookupCache policy_details_cache self.arn with
      | some _ =>
          -- the source reads the global `POLICY_DETAILS_CACHE[self.arn]` here
          match lookupCache w1.cache self.arn with
          | some stored => Except.ok (stored, w1, loadEvents)
          | none => Except.error PolicyError.keyError
      | none =>
          let policy := iam_client.getPolicy self.arn
          let version := policy.defaultVersionId
          let description :=
            match policy.description with
            | some d => d
            | none => PolicyDetails.empty.description
          let document := iam_client.getPolicyVersion self.arn version
          let details : PolicyDetails :=
            { name := policy.policyName
              text := flattenNewlines (json_dumps_indent2 document)
              version := version
              description := description }
          let w2 : World := { w1 with cache := insertCache w1.cache self.arn details }
          let saved := save_policy_cache remote_bucket_name w2
          Except.ok (details, saved.1,
            loadEvents ++
              [Event.iamGetPolicy self.arn, Event.iamGetPolicyVersion self.arn version] ++
              saved.2)

/-! ### Helper lemmas -/

/-- Truthiness guard: a non-empty global cache is returned as is. -/
theorem load_nonempty_aux (rb : Option String) (rf : Bool) (w : World)
    (h : w.cache ≠ []) :
    load_policy_cache rb rf w = Except.ok (w.cache, w, []) := by
  simp [load_policy_cache, h]

/-- Whatever `load_policy_cache` returns is an alias of the global cache
of the world it also returns, and its event list is one of the three
possible load traces. -/
theorem load_ok_shape_aux (rb : Option String) (rf : Bool) (w : World)
    (c : Cache) (w1 : World) (levs : List Event)
    (h : load_policy_cache rb rf w = Except.ok (c, w1, levs)) :
    c = w1.cache ∧
      (levs = [] ∨ levs = [Event.s3GetObject] ∨ levs = [Event.fileRead]) := by
  by_cases hc : w.cache = []
  · cases rb with
    | none =>
        cases hl : w.localFile with
        | none =>
            simp [load_policy_cache, hc, hl] at h
            obtain ⟨h1, h2, h3⟩ := h
            subst h1; subst h2; subst h3
            simp [hc]
        | some m =>
            simp [load_policy_cache, hc, hl] at h
            obtain ⟨h1, h2, h3⟩ := h
            subst h1; subst h2; subst h3
            simp
    | some b =>
        cases rf with
        | true => simp [load_policy_cache, hc] at h
        | false =>
            cases hr : w.remoteObject with
            | none =>
                simp [load_policy_cache, hc, hr] at h
                obtain ⟨h1, h2, h3⟩ := h
                subst h1; subst h2; subst h3
                simp [hc]
            | some m =>
                simp [load_policy_cache, hc, hr] at h
                obtain ⟨h1, h2, h3⟩ := h
                subst h1; subst h2; subst h3
                simp
  · rw [load_nonempty_aux rb rf w hc] at h
    simp at h
    obtain ⟨h1, h2, h3⟩ := h
    subst h1; subst h2; subst h3
    simp

/-- `save_policy_cache` never touches the in-memory mapping. -/
theorem save_cache_eq_aux (rb : Option String) (w : World) :
    (save_policy_cache rb w).1.cache = w.cache := by
  cases rb <;> simp [save_policy_cache]

/-- Reading a dict right after assignment at the same key returns the
assigned value. -/
theorem lookup_insert_self_aux (c : Cache) (arn : String) (d : PolicyDetails) :
    lookupCache (insertCache c arn d) arn = some d := by
  induction c with
  | nil => simp [insertCache, lookupCache]
  | cons kv rest ih =>
      obtain ⟨k, v⟩ := kv
      by_cases hk : k = arn
      · simp [insertCache, hk, lookupCache]
      · simp [insertCache, hk, lookupCache, ih]

/-- A successful dict read means the dict is non-empty. -/
theorem lookup_ne_nil_aux (c : Cache) (arn : String) (d : PolicyDetails)
    (h : lookupCache c arn = some d) : c ≠ [] := by
  intro hnil
  rw [hnil] at h
  simp [lookupCache] at h

/-- The hit path of `get_policy_details`: when the identifier is already
bound in the in-memory mapping, the stored record is returned, the world
is untouched and no event happens. -/
theorem get_hit_aux (self : PolicySummary) (iam : IamClient) (rb : Option String)
    (rf : Bool) (w : World) (d : PolicyDetails)
    (h : lookupCache w.cache self.arn = some d) :
    self.get_policy_details iam rb rf w = Except.ok (d, w, []) := by
  have hne : w.cache ≠ [] := lookup_ne_nil_aux w.cache self.arn d h
  unfold PolicySummary.get_policy_details
  rw [load_nonempty_aux rb rf w hne]
  simp [h]

/-- The record composed on the miss path, in terms of the two
collaborator calls. -/
def composeDetails (iam : IamClient) (arn : String) : PolicyDetails :=
  { name := (iam.getPolicy arn).policyName
    text := flattenNewlines (json_dumps_indent2
      (iam.getPolicyVersion arn (iam.getPolicy arn).defaultVersionId))
    version := (iam.getPolicy arn).defaultVersionId
    description :=
      match (iam.getPolicy arn).description with
      | some d => d
      | none => "" }

/-- The miss path of `get_policy_details`, fully characterized: the
composed record is inserted into the loaded mapping, the cache is saved,
and the trace is the load events, the two IAM fetches, then the save
events. -/
theorem get_miss_aux (self : PolicySummary) (iam : IamClient) (rb : Option String)
    (rf : Bool) (w : World) (c : Cache) (w1 : World) (levs : List Event)
    (hload : load_policy_cache rb rf w = Except.ok (c, w1, levs))
    (hmiss : lookupCache c self.arn = none) :
    self.get_policy_details iam rb rf w =
      Except.ok (composeDetails iam self.arn,
        (save_policy_cache rb
          { w1 with cache := insertCache w1.cache self.arn (composeDetails iam self.arn) }).1,
        levs ++
          [Event.iamGetPolicy self.arn,
           Event.iamGetPolicyVersion self.arn (iam.getPolicy self.arn).defaultVersionId] ++
          (save_policy_cache rb
            { w1 with cache := insertCache w1.cache self.arn (composeDetails iam self.arn) }).2) := by
  unfold PolicySummary.get_policy_details
  rw [hload]
  simp only [hmiss]
  rfl

set_option maxRecDepth 4096 in
/-- Character-level meaning of the embedded `re.sub("[:/]", "", arn)`:
it is exactly the filter keeping every character other than `:` and `/`,
in order. -/
theorem reSub_eq_filter_aux (cs : List Char) :
    reSubColonSlash cs = cs.filter fun c => (c != ':') && (c != '/') := by
  induction cs with
  | nil => rfl
  | cons c cs ih =>
      by_cases h1 : c = ':'
      · subst h1
        simp [reSubColonSlash, List.filter_cons, ih]
      · by_cases h2 : c = '/'
        · subst h2
          simp [reSubColonSlash, List.filter_cons, ih]
        · simp [reSubColonSlash, List.filter_cons, h1, h2, ih]

/-- The embedded `str.startswith` is the list-prefix relation. -/
theorem charsStartWith_iff_aux (s p : List Char) :
    charsStartWith s p = true ↔ p <+: s := by
  induction s generalizing p with
  | nil =>
      cases p with
      | nil => simp [charsStartWith]
      | cons d ds => simp [charsStartWith]
  | cons c cs ih =>
      cases p with
      | nil => simp [charsStartWith]
      | cons d ds =>
          simp only [charsStartWith, Bool.and_eq_true, decide_eq_true_eq,
            List.cons_prefix_cons, ih]
          exact and_congr_left fun _ => eq_comm

/-! ### The claims -/

/-- C6: constructing a `PolicySummary` with an attachment type outside
`{Group, User, Inline, Role}` fails with the invalid-attachment error
(before any other work: the embedded constructor validates first), and
construction with any of the four listed types succeeds. -/
theorem claim_attachment_type_validation (arn t : String) :
    (t ∉ ATTACHMENT_TYPES →
      PolicySummary.init arn t = Except.error (PolicyError.invalidAttachmentType t)) ∧
    (t ∈ ATTACHMENT_TYPES → ∃ p, PolicySummary.init arn t = Except.ok p) := by
  constructor
  · intro h
    simp [PolicySummary.init, h]
  · intro h
    exact ⟨{ arn := arn, sanitized_arn := sanitizeArn arn, attachment_type := t,
             aws_managed := if strStartsWith arn AWS_MANAGED_ARN_START then true else false },
           by simp [PolicySummary.init, h]⟩

/-- C6 witness: the kind `Owner` is rejected, the kind `Group` is
accepted, at a concrete ARN. -/
theorem claim_attachment_type_validation_witness :
    PolicySummary.init ("arn:x") ("Owner") =
        Except.error (PolicyError.invalidAttachmentType ("Owner")) ∧
    ∃ p, PolicySummary.init ("arn:x") ("Group") = Except.ok p :=
  ⟨(claim_attachment_type_validation ("arn:x") ("Owner")).1 (by decide),
   (claim_attachment_type_validation ("arn:x") ("Group")).2 (by decide)⟩

/-- C7: every successfully constructed `PolicySummary` carries as its
sanitized ARN the identifier with every `:` and `/` removed and all
other characters kept in order. -/
theorem claim_sanitized_arn (arn t : String) (p : PolicySummary)
    (h : PolicySummary.init arn t = Except.ok p) :
    p.sanitized_arn = String.mk (arn.data.filter fun c => (c != ':') && (c != '/')) := by
  unfold PolicySummary.init at h
  by_cases ht : t ∈ ATTACHMENT_TYPES
  · simp only [ht, if_true] at h
    injection h with h
    rw [← h]
    simp [sanitizeArn, reSub_eq_filter_aux]
  · simp [ht] at h

/-- C7 witness: for `arn:aws:iam::123:policy/Foo` the sanitized form is
`arnawsiam123policyFoo`. -/
theorem claim_sanitized_arn_witness :
    (PolicySummary.mk ("arn:aws:iam::123:policy/Foo") ("arnawsiam123policyFoo")
        ("Group") false).sanitized_arn =
      String.mk ((String.data ("arn:aws:iam::123:policy/Foo")).filter
        fun c => (c != ':') && (c != '/')) :=
  claim_sanitized_arn ("arn:aws:iam::123:policy/Foo") ("Group") _ (by rfl)

/-- C8: for every successfully constructed `PolicySummary`, the
AWS-managed flag (the spec's `SystemManaged` provenance) holds exactly
when the identifier starts with the fixed prefix
`arn:aws:iam::aws:policy`; otherwise the policy is custom. -/
theorem claim_aws_managed_provenance (arn t : String) (p : PolicySummary)
    (h : PolicySummary.init arn t = Except.ok p) :
    (p.aws_managed = true ↔ AWS_MANAGED_ARN_START.data <+: arn.data) ∧
    (p.aws_managed = false ↔ ¬ AWS_MANAGED_ARN_START.data <+: arn.data) := by
  unfold PolicySummary.init at h
  by_cases ht : t ∈ ATTACHMENT_TYPES
  · simp only [ht, if_true] at h
    injection h with h
    rw [← h]
    simp only [strStartsWith]
    by_cases hp : charsStartWith arn.data AWS_MANAGED_ARN_START.data = true
    · simp [hp, (charsStartWith_iff_aux arn.data AWS_MANAGED_ARN_START.data).mp hp]
    · have : ¬ AWS_MANAGED_ARN_START.data <+: arn.data := fun hpre =>
        hp ((charsStartWith_iff_aux arn.data AWS_MANAGED_ARN_START.data).mpr hpre)
      simp only [Bool.not_eq_true] at hp
      simp [hp, this]
  · simp [ht] at h

/-- C8 witness: `arn:aws:iam::aws:policy/ReadOnly` is recognized as
AWS managed. -/
theorem claim_aws_managed_provenance_witness :
    ((PolicySummary.mk ("arn:aws:iam::aws:policy/ReadOnly") ("arnawsiamawspolicyReadOnly")
        ("Role") true).aws_managed = true ↔
      AWS_MANAGED_ARN_START.data <+: (String.data ("arn:aws:iam::aws:policy/ReadOnly"))) ∧
    (PolicySummary.mk ("arn:aws:iam::aws:policy/ReadOnly") ("arnawsiamawspolicyReadOnly")
        ("Role") true).aws_managed = true :=
  ⟨(claim_aws_managed_provenance ("arn:aws:iam::aws:policy/ReadOnly") ("Role") _ (by rfl)).1,
   by decide⟩

/-- C2: when the process-wide mapping is non-empty, `load_policy_cache`
returns it unchanged, leaves the world untouched and performs no file or
remote I/O (empty event trace). -/
theorem claim_load_once_guard (rb : Option String) (rf : Bool) (w : World)
    (h : w.cache ≠ []) :
    load_policy_cache rb rf w = Except.ok (w.cache, w, []) :=
  load_nonempty_aux rb rf w h

/-- C2 witness: a one-entry cache is returned as is, even with a remote
bucket configured and a faulty remote store. -/
theorem claim_load_once_guard_witness :
    load_policy_cache (some ("bucket")) true
        (World.mk [(("a"), PolicyDetails.empty)] none none) =
      Except.ok ([(("a"), PolicyDetails.empty)],
        World.mk [(("a"), PolicyDetails.empty)] none none, []) :=
  claim_load_once_guard (some ("bucket")) true
    (World.mk [(("a"), PolicyDetails.empty)] none none) (by decide)

/-- C3: `load_policy_cache` fails — with the fatal cache-load error —
exactly when the mapping still has to be loaded, a remote bucket is
configured and the remote read fails with a condition other than
not-found; a remote not-found response, or an absent local cache file,
yields the empty mapping without raising (bootstrap path). -/
theorem claim_load_error_characterization (rb : Option String) (rf : Bool) (w : World) :
    (load_policy_cache rb rf w = Except.error PolicyError.cacheLoadError ↔
      (w.cache = [] ∧ rb ≠ none ∧ rf = true)) ∧
    (w.cache = [] → rb ≠ none → rf = false → w.remoteObject = none →
      load_policy_cache rb rf w = Except.ok ([], w, [Event.s3GetObject])) ∧
    (w.cache = [] → rb = none → w.localFile = none →
      load_policy_cache rb rf w = Except.ok ([], w, [])) := by
  refine ⟨⟨?_, ?_⟩, ?_, ?_⟩
  · intro h
    by_cases hc : w.cache = []
    · cases rb with
      | none =>
          cases hl : w.localFile <;> simp [load_policy_cache, hc, hl] at h
      | some b =>
          cases rf with
          | true => exact ⟨hc, by simp, rfl⟩
          | false =>
              cases hr : w.remoteObject <;> simp [load_policy_cache, hc, hr] at h
    · rw [load_nonempty_aux rb rf w hc] at h
      simp at h
  · rintro ⟨hc, hb, hf⟩
    subst hf
    cases rb with
    | none => exact absurd rfl hb
    | some b => simp [load_policy_cache, hc]
  · intro hc hb hf hr
    subst hf
    cases rb with
    | none => exact absurd rfl hb
    | some b => simp [load_policy_cache, hc, hr]
  · intro hc hb hl
    subst hb
    simp [load_policy_cache, hc, hl]

/-- C3 witness: at an empty in-memory cache, a faulty remote read
raises, a remote not-found yields the empty mapping, and a missing
local file yields the empty mapping. -/
theorem claim_load_error_characterization_witness :
    load_policy_cache (some ("bucket")) true (World.mk [] none none) =
        Except.error PolicyError.cacheLoadError ∧
    load_policy_cache (some ("bucket")) false (World.mk [] none none) =
        Except.ok ([], World.mk [] none none, [Event.s3GetObject]) ∧
    load_policy_cache none false (World.mk [] none none) =
        Except.ok ([], World.mk [] none none, []) :=
  ⟨(claim_load_error_characterization (some ("bucket")) true (World.mk [] none none)).1.mpr
      ⟨rfl, by simp, rfl⟩,
   (claim_load_error_characterization (some ("bucket")) false (World.mk [] none none)).2.1
      rfl (by simp) rfl rfl,
   (claim_load_error_characterization none false (World.mk [] none none)).2.2
      rfl rfl rfl⟩

/-- C4: persistence round-trip — after `save_policy_cache`, a fresh load
(empty in-memory mapping, backing store as left by the save) returns a
mapping equal to the one that was saved, for any mapping including the
empty one. -/
theorem claim_save_load_roundtrip (rb : Option String) (w w2 : World)
    (hcache : w2.cache = [])
    (hfile : w2.localFile = (save_policy_cache rb w).1.localFile)
    (hremote : w2.remoteObject = (save_policy_cache rb w).1.remoteObject) :
    ∃ w3 evs, load_policy_cache rb false w2 = Except.ok (w.cache, w3, evs) := by
  cases rb with
  | none =>
      simp [save_policy_cache] at hfile
      refine ⟨{ w2 with cache := w.cache }, [Event.fileRead], ?_⟩
      simp [load_policy_cache, hcache, hfile]
  | some b =>
      simp [save_policy_cache] at hremote
      refine ⟨{ w2 with cache := w.cache }, [Event.s3GetObject], ?_⟩
      simp [load_policy_cache, hcache, hremote]

/-- C4 witness: a one-entry mapping survives a local-file round-trip,
and the empty mapping survives a remote round-trip. -/
theorem claim_save_load_roundtrip_witness :
    (∃ w3 evs,
      load_policy_cache none false
          (World.mk [] (some [(("a"), PolicyDetails.empty)]) none) =
        Except.ok ([(("a"), PolicyDetails.empty)], w3, evs)) ∧
    (∃ w3 evs,
      load_policy_cache (some ("bucket")) false (World.mk [] (some []) (some [])) =
        Except.ok ([], w3, evs)) :=
  ⟨claim_save_load_roundtrip none
      (World.mk [(("a"), PolicyDetails.empty)] none none)
      (World.mk [] (some [(("a"), PolicyDetails.empty)]) none) rfl rfl rfl,
   claim_save_load_roundtrip (some ("bucket"))
      (World.mk [] (some []) none)
      (World.mk [] (some []) (some [])) rfl rfl rfl⟩

/-- Is the event the remote descriptor fetch (`get_policy`)? -/
def isDescriptorFetch : Event → Bool
  | Event.iamGetPolicy _ => true
  | _ => false

/-- Is the event the remote document fetch (`get_policy_version`)? -/
def isDocumentFetch : Event → Bool
  | Event.iamGetPolicyVersion _ _ => true
  | _ => false

/-- The hit path of `get_policy_details`, phrased against the mapping
returned by `load_policy_cache`. -/
theorem get_hit_loaded_aux (self : PolicySummary) (iam : IamClient) (rb : Option String)
    (rf : Bool) (w : World) (c : Cache) (w1 : World) (levs : List Event) (d : PolicyDetails)
    (hload : load_policy_cache rb rf w = Except.ok (c, w1, levs))
    (hlook : lookupCache c self.arn = some d) :
    self.get_policy_details iam rb rf w = Except.ok (d, w1, levs) := by
  have hcw := (load_ok_shape_aux rb rf w c w1 levs hload).1
  unfold PolicySummary.get_policy_details
  rw [hload]
  simp only [← hcw, hlook]

/-- The two event lists `save_policy_cache` can produce. -/
theorem save_events_shape_aux (rb : Option String) (w : World) :
    (save_policy_cache rb w).2 = [Event.fileWrite] ∨
    (save_policy_cache rb w).2 =
      [Event.fileWrite, Event.ensureBucket, Event.s3Upload] := by
  cases rb <;> simp [save_policy_cache]

/-- C1: resolution is deduplicating.  First, a hit (the identifier is
already bound in the in-memory mapping) returns the stored record with
no event at all — in particular no remote IAM call.  Second, any
successful resolution performs at most one descriptor fetch and at most
one document fetch, and re-resolving the same identifier against the
resulting state performs none, so at most one remote fetch of each kind
happens per identifier per cache lifetime. -/
theorem claim_resolve_dedup :
    (∀ (self : PolicySummary) (iam : IamClient) (rb : Option String) (rf : Bool)
        (w : World) (d : PolicyDetails),
        lookupCache w.cache self.arn = some d →
        self.get_policy_details iam rb rf w = Except.ok (d, w, [])) ∧
    (∀ (self : PolicySummary) (iam : IamClient) (rb : Option String) (rf : Bool)
        (w : World) (d : PolicyDetails) (w1 : World) (evs : List Event),
        self.get_policy_details iam rb rf w = Except.ok (d, w1, evs) →
        List.countP isDescriptorFetch evs ≤ 1 ∧
        List.countP isDocumentFetch evs ≤ 1 ∧
        self.get_policy_details iam rb rf w1 = Except.ok (d, w1, [])) := by
  constructor
  · intro self iam rb rf w d h
    exact get_hit_aux self iam rb rf w d h
  · intro self iam rb rf w d w1 evs hrun
    cases hload : load_policy_cache rb rf w with
    | error e =>
        unfold PolicySummary.get_policy_details at hrun
        rw [hload] at hrun
        simp at hrun
    | ok res =>
        obtain ⟨c, wl, levs⟩ := res
        obtain ⟨hcw, hlevs⟩ := load_ok_shape_aux rb rf w c wl levs hload
        have hlevs0 : List.countP isDescriptorFetch levs = 0 ∧
            List.countP isDocumentFetch levs = 0 := by
          rcases hlevs with h | h | h <;> subst h <;>
            simp [List.countP, List.countP.go, isDescriptorFetch, isDocumentFetch]
        cases hlook : lookupCache c self.arn with
        | some stored =>
            rw [get_hit_loaded_aux self iam rb rf w c wl levs stored hload hlook] at hrun
            simp only [Except.ok.injEq, Prod.mk.injEq] at hrun
            obtain ⟨hd, hw, hevs⟩ := hrun
            subst hd; subst hw; subst hevs
            refine ⟨by simp [hlevs0.1], by simp [hlevs0.2], ?_⟩
            refine get_hit_aux self iam rb rf wl stored ?_
            rw [← hcw]
            exact hlook
        | none =>
            rw [get_miss_aux self iam rb rf w c wl levs hload hlook] at hrun
            simp only [Except.ok.injEq, Prod.mk.injEq] at hrun
            obtain ⟨hd, hw, hevs⟩ := hrun
            subst hd; subst hw; subst hevs
            refine ⟨?_, ?_, ?_⟩
            · rcases save_events_shape_aux rb
                  { wl with cache := insertCache wl.cache self.arn (composeDetails iam self.arn) }
                with hs | hs <;>
                simp [hs, List.countP_append, List.countP_cons, hlevs0.1,
                  isDescriptorFetch, isDocumentFetch]
            · rcases save_events_shape_aux rb
                  { wl with cache := insertCache wl.cache self.arn (composeDetails iam self.arn) }
                with hs | hs <;>
                simp [hs, List.countP_append, List.countP_cons, hlevs0.2,
                  isDescriptorFetch, isDocumentFetch]
            · refine get_hit_aux self iam rb rf _ _ ?_
              rw [save_cache_eq_aux]
              exact lookup_insert_self_aux wl.cache self.arn (composeDetails iam self.arn)

/-- A concrete summary used by the concrete runs below. -/
def samplePolicy : PolicySummary :=
  { arn := "a", sanitized_arn := "a", attachment_type := "Group", aws_managed := false }

/-- A concrete IAM collaborator. -/
def sampleIam : IamClient :=
  { getPolicy := fun _ =>
      { policyName := "ReadOnly", defaultVersionId := "v1", description := some "A policy" }
    getPolicyVersion := fun _ _ =>
      Json.obj [("Statement", Json.arr [Json.obj [("Effect", Json.str "Allow")]])] }

/-- A world whose in-memory cache already holds `samplePolicy.arn`. -/
def sampleHitWorld : World := World.mk [(("a"), PolicyDetails.empty)] none none

/-- A fresh world: empty cache, no local file, no remote object. -/
def emptyWorld : World := World.mk [] none none

/-- C1 witness: a concrete hit returns the stored record eventlessly,
and a re-resolution of a successful run performs no fetch. -/
theorem claim_resolve_dedup_witness :
    (samplePolicy.get_policy_details sampleIam none false sampleHitWorld =
      Except.ok (PolicyDetails.empty, sampleHitWorld, [])) ∧
    (List.countP isDescriptorFetch [] ≤ 1 ∧
     List.countP isDocumentFetch [] ≤ 1 ∧
     samplePolicy.get_policy_details sampleIam none false sampleHitWorld =
       Except.ok (PolicyDetails.empty, sampleHitWorld, [])) :=
  ⟨claim_resolve_dedup.1 samplePolicy sampleIam none false sampleHitWorld
      PolicyDetails.empty (by rfl),
   claim_resolve_dedup.2 samplePolicy sampleIam none false sampleHitWorld
      PolicyDetails.empty sampleHitWorld [] (by rfl)⟩

/-- `load_policy_cache` never writes: the local file and the remote
object of the world it returns are the ones it was given. -/
theorem load_files_eq_aux (rb : Option String) (rf : Bool) (w : World)
    (c : Cache) (w1 : World) (levs : List Event)
    (h : load_policy_cache rb rf w = Except.ok (c, w1, levs)) :
    w1.localFile = w.localFile ∧ w1.remoteObject = w.remoteObject := by
  by_cases hc : w.cache = []
  · cases rb with
    | none =>
        cases hl : w.localFile <;> simp [load_policy_cache, hc, hl] at h <;>
          obtain ⟨h1, h2, h3⟩ := h <;> subst h2 <;> simp [hl]
    | some b =>
        cases rf with
        | true => simp [load_policy_cache, hc] at h
        | false =>
            cases hr : w.remoteObject <;> simp [load_policy_cache, hc, hr] at h <;>
              obtain ⟨h1, h2, h3⟩ := h <;> subst h2 <;> simp [hr]
  · rw [load_nonempty_aux rb rf w hc] at h
    simp at h
    obtain ⟨h1, h2, h3⟩ := h
    subst h2
    exact ⟨rfl, rfl⟩

/-- C10: frame property of the hit path — when the identifier is already
bound in the loaded in-memory mapping, `get_policy_details` returns the
post-load world exactly as it is (no insertion, no overwrite), the local
cache file and the remote object are the ones the call started with, and
no write, bucket-provisioning or upload event happens. -/
theorem claim_hit_frame (self : PolicySummary) (iam : IamClient) (rb : Option String)
    (rf : Bool) (w : World) (c : Cache) (w1 : World) (levs : List Event) (d : PolicyDetails)
    (hload : load_policy_cache rb rf w = Except.ok (c, w1, levs))
    (hlook : lookupCache c self.arn = some d) :
    ∃ r, self.get_policy_details iam rb rf w = Except.ok r ∧
      r.2.1 = w1 ∧
      r.2.1.localFile = w.localFile ∧
      r.2.1.remoteObject = w.remoteObject ∧
      Event.fileWrite ∉ r.2.2 ∧ Event.ensureBucket ∉ r.2.2 ∧ Event.s3Upload ∉ r.2.2 := by
  obtain ⟨hfile, hremote⟩ := load_files_eq_aux rb rf w c w1 levs hload
  obtain ⟨hcw, hlevs⟩ := load_ok_shape_aux rb rf w c w1 levs hload
  refine ⟨(d, w1, levs),
    get_hit_loaded_aux self iam rb rf w c w1 levs d hload hlook,
    rfl, hfile, hremote, ?_, ?_, ?_⟩ <;>
    rcases hlevs with h | h | h <;> subst h <;> simp

/-- C10 witness: a concrete hit with a remote bucket configured rewrites
nothing. -/
theorem claim_hit_frame_witness :
    ∃ r, samplePolicy.get_policy_details sampleIam (some ("bucket")) false sampleHitWorld =
        Except.ok r ∧
      r.2.1 = sampleHitWorld ∧
      r.2.1.localFile = sampleHitWorld.localFile ∧
      r.2.1.remoteObject = sampleHitWorld.remoteObject ∧
      Event.fileWrite ∉ r.2.2 ∧ Event.ensureBucket ∉ r.2.2 ∧ Event.s3Upload ∉ r.2.2 :=
  claim_hit_frame samplePolicy sampleIam (some ("bucket")) false sampleHitWorld
    [(("a"), PolicyDetails.empty)] sampleHitWorld [] PolicyDetails.empty (by rfl) (by rfl)

/-- C5: write-through persistence — on every cache miss the composed
record is inserted into the mapping keyed by the identifier, and within
the same call (before the detail is returned) the cache is saved: the
local file now holds the full current mapping and a write event is in
the trace; when a remote bucket is configured, the bucket is ensured and
the file uploaded, so the remote object also holds the full current
mapping. -/
theorem claim_write_through (self : PolicySummary) (iam : IamClient) (rb : Option String)
    (rf : Bool) (w : World) (c : Cache) (w1 : World) (levs : List Event)
    (hload : load_policy_cache rb rf w = Except.ok (c, w1, levs))
    (hmiss : lookupCache c self.arn = none) :
    ∃ d w3 evs, self.get_policy_details iam rb rf w = Except.ok (d, w3, evs) ∧
      w3.cache = insertCache w1.cache self.arn d ∧
      lookupCache w3.cache self.arn = some d ∧
      w3.localFile = some w3.cache ∧
      Event.fileWrite ∈ evs ∧
      (rb ≠ none →
        w3.remoteObject = some w3.cache ∧
        Event.ensureBucket ∈ evs ∧ Event.s3Upload ∈ evs) := by
  refine ⟨composeDetails iam self.arn, _, _,
    get_miss_aux self iam rb rf w c w1 levs hload hmiss, ?_, ?_, ?_, ?_, ?_⟩
  · exact save_cache_eq_aux rb _
  · rw [save_cache_eq_aux]
    exact lookup_insert_self_aux w1.cache self.arn (composeDetails iam self.arn)
  · cases rb <;> simp [save_policy_cache]
  · cases rb <;> simp [save_policy_cache]
  · intro hb
    cases rb with
    | none => exact absurd rfl hb
    | some b => simp [save_policy_cache]

/-- C5 witness: a concrete miss with a remote bucket configured persists
the inserted mapping locally and remotely. -/
theorem claim_write_through_witness :
    ∃ d w3 evs,
      samplePolicy.get_policy_details sampleIam (some ("bucket")) false emptyWorld =
        Except.ok (d, w3, evs) ∧
      w3.cache = insertCache emptyWorld.cache samplePolicy.arn d ∧
      lookupCache w3.cache samplePolicy.arn = some d ∧
      w3.localFile = some w3.cache ∧
      Event.fileWrite ∈ evs ∧
      (some ("bucket") ≠ none →
        w3.remoteObject = some w3.cache ∧
        Event.ensureBucket ∈ evs ∧ Event.s3Upload ∈ evs) :=
  claim_write_through samplePolicy sampleIam (some ("bucket")) false emptyWorld
    [] emptyWorld [Event.s3GetObject] (by rfl) (by rfl)

/-- C9: on a cache miss the composed record takes its name and version
from the fetched descriptor, its description from the descriptor when
present (left as the empty string otherwise), and its text is the
document pretty-printed with `indent=2` with every embedded line break
replaced by the `<br>` marker. -/
theorem claim_miss_composition (self : PolicySummary) (iam : IamClient) (rb : Option String)
    (rf : Bool) (w : World) (c : Cache) (w1 : World) (levs : List Event)
    (hload : load_policy_cache rb rf w = Except.ok (c, w1, levs))
    (hmiss : lookupCache c self.arn = none) :
    ∃ d w3 evs, self.get_policy_details iam rb rf w = Except.ok (d, w3, evs) ∧
      d.name = (iam.getPolicy self.arn).policyName ∧
      d.version = (iam.getPolicy self.arn).defaultVersionId ∧
      ((iam.getPolicy self.arn).description = none → d.description = "") ∧
      (∀ s, (iam.getPolicy self.arn).description = some s → d.description = s) ∧
      d.text = flattenNewlines (json_dumps_indent2
        (iam.getPolicyVersion self.arn (iam.getPolicy self.arn).defaultVersionId)) := by
  refine ⟨composeDetails iam self.arn, _, _,
    get_miss_aux self iam rb rf w c w1 levs hload hmiss, rfl, rfl, ?_, ?_, rfl⟩
  · intro hn
    simp [composeDetails, hn]
  · intro s hs
    simp [composeDetails, hs]

/-- A concrete IAM collaborator whose descriptor has no description and
whose document is nested (so its pretty-printed form has line breaks). -/
def docIam : IamClient :=
  { getPolicy := fun _ =>
      { policyName := "TestPolicy", defaultVersionId := "v2", description := none }
    getPolicyVersion := fun _ _ =>
      Json.obj [("Statement", Json.arr [Json.obj [("Effect", Json.str "Allow")]])] }

/-- C9 witness: a concrete miss composes the record with the default
empty description and the flattened pretty-printed document text. -/
theorem claim_miss_composition_witness :
    ∃ d w3 evs,
      samplePolicy.get_policy_details docIam none false emptyWorld =
        Except.ok (d, w3, evs) ∧
      d.name = ("TestPolicy") ∧
      d.description = "" ∧
      d.text =
        ("\x7b<br>  \"Statement\": [<br>    \x7b<br>      \"Effect\": \"Allow\"<br>    \x7d<br>  ]<br>\x7d") := by
  obtain ⟨d, w3, evs, hrun, hname, hver, hdescn, hdescs, htext⟩ :=
    claim_miss_composition samplePolicy docIam none false emptyWorld
      [] emptyWorld [] (by rfl) (by rfl)
  refine ⟨d, w3, evs, hrun, ?_, hdescn rfl, ?_⟩
  · rw [hname]
    rfl
  · rw [htext]
    rfl
